import Mathlib

/-!
Verification of the single-instance IPC coordinator and diagnostic
process-tree reporter of `src/vs/code/electron-main/main.ts`.

The stateful coordinator (`setupIPC` / its inner `setup(retry)` function)
is embedded as a pure function from a `World` — the outcomes the
environment returns for each bind / connect / unlink attempt together
with the platform and argument flags — to a terminal `Outcome` paired
with the ordered trace of observable `Event`s the run performs.
-/

/-- Error codes carried by environment failures, as the source tests them
(`err.code`): `EADDRINUSE`, `ECONNREFUSED`, `EPERM`, or anything else. -/
inductive ErrCode where
  | EADDRINUSE
  | ECONNREFUSED
  | EPERM
  | other (s : String)
deriving DecidableEq

/-- Observable effects of one coordinator run, in the order the source
performs them. -/
inductive Event where
  | bindAttempt
  | dockShow
  | dockHide
  | psUsageInfo
  | clientDispose
  | armWarning (ms : Nat)
  | disarmWarning
  | getMainProcessId
  | foregroundGrant (ok : Bool)
  | getMainProcessInfo
  | listProcessesCall (pid : Nat)
  | printReport
  | startRequest
  | showDialog
  | unlinkAttempt
deriving DecidableEq

/-- Terminal result of `setupIPC`: a bound server (the process becomes
primary), an `ExpectedError` sentinel with its message, a coded error
(`TPromise.wrapError` of an environment error), or a plain `Error`
with only a message (the extension-tests conflict). -/
inductive Outcome where
  | server (attempt : Nat)
  | expected (msg : String)
  | failure (code : ErrCode)
  | failureMsg (msg : String)
deriving DecidableEq

/-- The environment of one coordinator run: results of the `serve`,
`connect` and `fs.unlinkSync` calls (indexed by attempt number, `none`
meaning success), platform flags, and the parsed arguments the source
consults. -/
structure World where
  serveResult : Nat → Option ErrCode
  connectResult : Nat → Option ErrCode
  unlinkResult : Nat → Option ErrCode
  isWindows : Bool
  isMacintosh : Bool
  argsPs : Bool
  wait : Bool
  extensionTestsPath : Bool
  debugBreak : Bool
  grantFails : Bool
  mainPid : Nat

/-- Message of the extension-tests exclusivity conflict (main.ts:138). -/
def extensionTestsMsg : String :=
  "Running extension tests from the command line is currently only supported if no other instance of Code is running."

/-- Message of the `ExpectedError` raised after forwarding (main.ts:183). -/
def sentEnvMsg : String := "Sent env to running instance. Terminating..."

/-- One invocation of the source's inner `setup(retry)` function
(main.ts:110-212), with the recursive call `setup(false)` of
main.ts:208 abstracted as the `recurse` argument.  Returns the terminal
outcome and the ordered event trace. -/
def setupStep (w : World) (retry : Bool) (attempt : Nat)
    (recurse : Outcome × List Event) : Outcome × List Event :=
  match w.serveResult attempt with
  | none =>
    -- serve succeeded: we are the primary (main.ts:111-121)
    (Outcome.server attempt,
      [Event.bindAttempt]
        ++ (if w.isMacintosh then [Event.dockShow] else [])
        ++ (if w.argsPs then [Event.psUsageInfo] else []))
  | some e =>
    if e ≠ ErrCode.EADDRINUSE then
      -- any bind failure other than address-in-use is terminal (main.ts:123-125)
      (Outcome.failure e, [Event.bindAttempt])
    else
      let pre := [Event.bindAttempt]
        ++ (if w.isMacintosh then [Event.dockHide] else [])
      match w.connectResult attempt with
      | none =>
        -- connected to the running instance (main.ts:134-184)
        if w.extensionTestsPath && !w.debugBreak then
          (Outcome.failureMsg extensionTestsMsg, pre ++ [Event.clientDispose])
        else
          let armEv := if !w.wait then [Event.armWarning 10000] else []
          if w.argsPs then
            (Outcome.expected "",
              pre ++ armEv
                ++ [Event.getMainProcessInfo, Event.listProcessesCall w.mainPid,
                    Event.printReport])
          else
            let fgEv := if w.isWindows then
                [Event.getMainProcessId, Event.foregroundGrant (!w.grantFails)]
              else []
            (Outcome.expected sentEnvMsg,
              pre ++ armEv ++ fgEv
                ++ [Event.startRequest, Event.clientDispose]
                ++ (if !w.wait then [Event.disarmWarning] else []))
      | some ce =>
        if retry = false ∨ w.isWindows = true ∨ ce ≠ ErrCode.ECONNREFUSED then
          -- terminal connect failure (main.ts:187-196)
          (Outcome.failure ce,
            pre ++ (if ce = ErrCode.EPERM then [Event.showDialog] else []))
        else
          -- stale endpoint: delete and retry once (main.ts:198-208)
          match w.unlinkResult attempt with
          | some ue => (Outcome.failure ue, pre ++ [Event.unlinkAttempt])
          | none => (recurse.1, pre ++ [Event.unlinkAttempt] ++ recurse.2)

/-- `setup(false)`: the retried invocation.  With `retry = false` the
recursion branch is unreachable (the guard of main.ts:187 is taken), so
the `recurse` argument is irrelevant; `setupStep_false_recurse_irrel`
proves this. -/
def setupFalse (w : World) (attempt : Nat) : Outcome × List Event :=
  setupStep w false attempt (Outcome.failureMsg "unreachable", [])

/-- `setup(true)`: the initial invocation, whose stale-endpoint branch
recurses into `setup(false)` at the next attempt index (main.ts:208). -/
def setupTrue (w : World) (attempt : Nat) : Outcome × List Event :=
  setupStep w true attempt (setupFalse w (attempt + 1))

/-- `setupIPC` (main.ts:87-215): runs `setup(true)` at attempt 0. -/
def setupIPC (w : World) : Outcome × List Event := setupTrue w 0

/-- With the retry flag cleared, `setupStep` never reaches the recursion
branch: its value does not depend on `recurse`. -/
theorem setupStep_false_recurse_irrel (w : World) (a : Nat)
    (r r' : Outcome × List Event) :
    setupStep w false a r = setupStep w false a r' := by
  unfold setupStep
  cases w.serveResult a with
  | none => rfl
  | some e =>
    by_cases he : e ≠ ErrCode.EADDRINUSE
    · simp [he]
    · simp only [he, if_false]
      cases w.connectResult a with
      | none => rfl
      | some ce => simp

/-- A `setup(false)` run never attempts a deletion. -/
theorem setupFalse_no_unlink (w : World) (a : Nat) :
    (setupFalse w a).2.count Event.unlinkAttempt = 0 := by
  unfold setupFalse setupStep
  cases w.serveResult a with
  | none =>
    cases hm : w.isMacintosh <;> cases hp : w.argsPs <;> simp [List.count_append]
  | some e =>
    by_cases he : e ≠ ErrCode.EADDRINUSE
    · simp [he]
    · simp only [he, if_false]
      cases w.connectResult a with
      | none =>
        cases hm : w.isMacintosh <;>
          cases ht : w.extensionTestsPath && !w.debugBreak <;>
          cases hw : w.wait <;>
          cases hp : w.argsPs <;>
          cases hwin : w.isWindows <;>
          simp [List.count_append, ht]
      | some ce =>
        cases hm : w.isMacintosh <;>
          by_cases hp : ce = ErrCode.EPERM <;>
          simp [List.count_append, hp]

/-- A `setup(false)` run performs exactly one bind attempt. -/
theorem setupFalse_one_bind (w : World) (a : Nat) :
    (setupFalse w a).2.count Event.bindAttempt = 1 := by
  unfold setupFalse setupStep
  cases w.serveResult a with
  | none =>
    cases hm : w.isMacintosh <;> cases hp : w.argsPs <;> simp [List.count_append]
  | some e =>
    by_cases he : e ≠ ErrCode.EADDRINUSE
    · simp [he]
    · simp only [he, if_false]
      cases w.connectResult a with
      | none =>
        cases hm : w.isMacintosh <;>
          cases ht : w.extensionTestsPath && !w.debugBreak <;>
          cases hw : w.wait <;>
          cases hp : w.argsPs <;>
          cases hwin : w.isWindows <;>
          simp [List.count_append, ht]
      | some ce =>
        cases hm : w.isMacintosh <;>
          by_cases hp : ce = ErrCode.EPERM <;>
          simp [List.count_append, hp]

/-- Under a stale endpoint at attempt 0 (bind conflict, connection refused,
POSIX platform, successful deletion) the run is exactly: bind, optional
dock-hide, the deletion, then the `setup(false)` run at attempt 1. -/
theorem setupIPC_stale (w : World)
    (h1 : w.serveResult 0 = some ErrCode.EADDRINUSE)
    (h2 : w.connectResult 0 = some ErrCode.ECONNREFUSED)
    (h3 : w.isWindows = false)
    (h4 : w.unlinkResult 0 = none) :
    setupIPC w = ((setupFalse w 1).1,
      ([Event.bindAttempt] ++ (if w.isMacintosh then [Event.dockHide] else [])
        ++ [Event.unlinkAttempt]) ++ (setupFalse w 1).2) := by
  unfold setupIPC setupTrue setupStep
  rw [h1, h2]
  simp [h3, h4]

/-- C1: on a stale endpoint (bind conflict, connection refused, retry
allowed, non-Windows, deletion succeeds) exactly one deletion is
performed and exactly two bind attempts occur (recursion depth two); if
the rebind succeeds the outcome is the primary server of attempt 1, and
a second consecutive stale condition yields a terminal connect failure
instead of a second deletion — the retried invocation never deletes. -/
theorem c1_single_retry (w : World)
    (h1 : w.serveResult 0 = some ErrCode.EADDRINUSE)
    (h2 : w.connectResult 0 = some ErrCode.ECONNREFUSED)
    (h3 : w.isWindows = false)
    (h4 : w.unlinkResult 0 = none) :
    (setupIPC w).2.count Event.unlinkAttempt = 1
    ∧ (setupIPC w).2.count Event.bindAttempt = 2
    ∧ (w.serveResult 1 = none → (setupIPC w).1 = Outcome.server 1)
    ∧ (w.serveResult 1 = some ErrCode.EADDRINUSE →
        w.connectResult 1 = some ErrCode.ECONNREFUSED →
        (setupIPC w).1 = Outcome.failure ErrCode.ECONNREFUSED) := by
  rw [setupIPC_stale w h1 h2 h3 h4]
  refine ⟨?_, ?_, ?_, ?_⟩
  · simp [List.count_append, setupFalse_no_unlink]
    cases w.isMacintosh <;> simp
  · simp [List.count_append, setupFalse_one_bind]
    cases w.isMacintosh <;> simp
  · intro h5
    unfold setupFalse setupStep
    rw [h5]
  · intro h5 h6
    unfold setupFalse setupStep
    rw [h5, h6]
    simp

/-- Concrete stale-endpoint world: bind conflict at attempt 0 only,
nothing listening, deletion succeeds, POSIX platform. -/
def staleWorld : World :=
  { serveResult := fun n => if n = 0 then some ErrCode.EADDRINUSE else none
    connectResult := fun _ => some ErrCode.ECONNREFUSED
    unlinkResult := fun _ => none
    isWindows := false
    isMacintosh := false
    argsPs := false
    wait := false
    extensionTestsPath := false
    debugBreak := false
    grantFails := false
    mainPid := 0 }

/-- Witness for C1: in the concrete stale world the run deletes once,
binds twice, and ends as the primary of attempt 1. -/
theorem c1_single_retry_witness :
    (setupIPC staleWorld).2.count Event.unlinkAttempt = 1
    ∧ (setupIPC staleWorld).2.count Event.bindAttempt = 2
    ∧ (setupIPC staleWorld).1 = Outcome.server 1 :=
  ⟨(c1_single_retry staleWorld rfl rfl rfl rfl).1,
   (c1_single_retry staleWorld rfl rfl rfl rfl).2.1,
   (c1_single_retry staleWorld rfl rfl rfl rfl).2.2.1 rfl⟩

/-- A deletion is attempted in a coordinator run exactly when the bind
failed with address-in-use, the connect failed with connection-refused,
and the platform is not Windows. -/
theorem unlink_mem_setupIPC (w : World) :
    Event.unlinkAttempt ∈ (setupIPC w).2 ↔
      (w.serveResult 0 = some ErrCode.EADDRINUSE
        ∧ w.connectResult 0 = some ErrCode.ECONNREFUSED
        ∧ w.isWindows = false) := by
  unfold setupIPC setupTrue setupStep
  cases hs : w.serveResult 0 with
  | none =>
    cases w.isMacintosh <;> cases w.argsPs <;> simp
  | some e =>
    by_cases he : e = ErrCode.EADDRINUSE
    · subst he
      simp only [ne_eq, not_true_eq_false, if_false, reduceIte]
      cases hc : w.connectResult 0 with
      | none =>
        cases w.isMacintosh <;>
          cases ht : w.extensionTestsPath && !w.debugBreak <;>
          cases w.wait <;>
          cases w.argsPs <;>
          cases w.isWindows <;>
          simp [ht]
      | some ce =>
        by_cases hce : ce = ErrCode.ECONNREFUSED
        · subst hce
          cases hwin : w.isWindows with
          | true =>
            cases w.isMacintosh <;> simp [hwin]
          | false =>
            cases hu : w.unlinkResult 0 <;> cases w.isMacintosh <;>
              simp [hwin, hu]
        · cases w.isMacintosh <;>
            by_cases hp : ce = ErrCode.EPERM <;>
            simp [hce, hp]
    · simp [he]

/-- A connect failure that is not (connection-refused on a non-Windows
platform) is terminal: the run fails with that very error code. -/
theorem setupIPC_connectfail_terminal (w : World) (ce : ErrCode)
    (h1 : w.serveResult 0 = some ErrCode.EADDRINUSE)
    (h2 : w.connectResult 0 = some ce)
    (h3 : ce ≠ ErrCode.ECONNREFUSED ∨ w.isWindows = true) :
    (setupIPC w).1 = Outcome.failure ce := by
  unfold setupIPC setupTrue setupStep
  rw [h1, h2]
  rcases h3 with h | h
  · simp [h]
  · simp [h]

/-- If the stale-endpoint deletion itself fails, the run fails with the
deletion error and performs no further bind attempt. -/
theorem setupIPC_unlinkfail_terminal (w : World) (ue : ErrCode)
    (h1 : w.serveResult 0 = some ErrCode.EADDRINUSE)
    (h2 : w.connectResult 0 = some ErrCode.ECONNREFUSED)
    (h3 : w.isWindows = false)
    (h4 : w.unlinkResult 0 = some ue) :
    (setupIPC w).1 = Outcome.failure ue
    ∧ (setupIPC w).2.count Event.bindAttempt = 1 := by
  unfold setupIPC setupTrue setupStep
  rw [h1, h2]
  simp [h3, h4]
  cases w.isMacintosh <;> simp

/-- C2: the stale endpoint is deleted iff the connect attempt failed with
connection-refused while the retry flag was still set and the platform
is non-Windows; any other connect failure is terminal with that error
and no deletion; and if the deletion fails the run is terminal with the
deletion error, without rebinding. -/
theorem c2_delete_iff (w : World) :
    (Event.unlinkAttempt ∈ (setupIPC w).2 ↔
      (w.serveResult 0 = some ErrCode.EADDRINUSE
        ∧ w.connectResult 0 = some ErrCode.ECONNREFUSED
        ∧ w.isWindows = false))
    ∧ (∀ ce, w.serveResult 0 = some ErrCode.EADDRINUSE →
        w.connectResult 0 = some ce →
        (ce ≠ ErrCode.ECONNREFUSED ∨ w.isWindows = true) →
        (setupIPC w).1 = Outcome.failure ce
          ∧ Event.unlinkAttempt ∉ (setupIPC w).2)
    ∧ (∀ ue, w.serveResult 0 = some ErrCode.EADDRINUSE →
        w.connectResult 0 = some ErrCode.ECONNREFUSED →
        w.isWindows = false → w.unlinkResult 0 = some ue →
        (setupIPC w).1 = Outcome.failure ue
          ∧ (setupIPC w).2.count Event.bindAttempt = 1) := by
  refine ⟨unlink_mem_setupIPC w, ?_, ?_⟩
  · intro ce h1 h2 h3
    refine ⟨setupIPC_connectfail_terminal w ce h1 h2 h3, ?_⟩
    rw [unlink_mem_setupIPC w]
    rintro ⟨g1, g2, g3⟩
    rw [h2] at g2
    rcases h3 with h | h
    · exact h (Option.some.inj g2)
    · rw [h] at g3
      exact Bool.noConfusion g3
  · intro ue h1 h2 h3 h4
    exact setupIPC_unlinkfail_terminal w ue h1 h2 h3 h4

/-- Concrete world for the failing-deletion scenario: stale endpoint whose
deletion fails with an I/O error. -/
def staleUnlinkFailWorld : World :=
  { staleWorld with unlinkResult := fun _ => some (ErrCode.other "EACCES") }

/-- Witness for C2: in the concrete failing-deletion world the run fails
with the deletion error and binds only once; moreover the deletion
characterization instantiates there. -/
theorem c2_delete_iff_witness :
    (setupIPC staleUnlinkFailWorld).1 = Outcome.failure (ErrCode.other "EACCES")
    ∧ (setupIPC staleUnlinkFailWorld).2.count Event.bindAttempt = 1
    ∧ Event.unlinkAttempt ∈ (setupIPC staleUnlinkFailWorld).2 :=
  ⟨((c2_delete_iff staleUnlinkFailWorld).2.2 (ErrCode.other "EACCES")
      rfl rfl rfl rfl).1,
   ((c2_delete_iff staleUnlinkFailWorld).2.2 (ErrCode.other "EACCES")
      rfl rfl rfl rfl).2,
   ((c2_delete_iff staleUnlinkFailWorld).1).mpr ⟨rfl, rfl, rfl⟩⟩

/-- C3 (amended): in diagnostic mode with a live peer no start request is
ever issued; and provided the run is not an exclusivity-requiring
extension-test run, it ends with the expected `DiagnosticPrinted`
sentinel (`ExpectedError` with empty message) after printing the
report. -/
theorem c3_diag_no_start (w : World)
    (h1 : w.serveResult 0 = some ErrCode.EADDRINUSE)
    (h2 : w.connectResult 0 = none)
    (h3 : w.argsPs = true) :
    Event.startRequest ∉ (setupIPC w).2
    ∧ ((w.extensionTestsPath && !w.debugBreak) = false →
        (setupIPC w).1 = Outcome.expected ""
          ∧ Event.printReport ∈ (setupIPC w).2) := by
  unfold setupIPC setupTrue setupStep
  rw [h1, h2]
  constructor
  · cases ht : w.extensionTestsPath && !w.debugBreak <;>
      cases w.isMacintosh <;>
      cases w.wait <;>
      simp [h3]
  · intro ht
    cases w.isMacintosh <;> cases w.wait <;> simp [h3, ht]

/-- Concrete world: diagnostic flag set, live peer, and an exclusivity
extension-test run. -/
def diagTestsWorld : World :=
  { serveResult := fun _ => some ErrCode.EADDRINUSE
    connectResult := fun _ => none
    unlinkResult := fun _ => none
    isWindows := false
    isMacintosh := false
    argsPs := true
    wait := false
    extensionTestsPath := true
    debugBreak := false
    grantFails := false
    mainPid := 3 }

/-- Counterexample for C3 as stated: a diagnostic run that reaches a live
peer but is also an exclusivity-requiring extension-test run terminates
with the test-conflict error, not with the expected sentinel. -/
theorem c3_diag_cex :
    (setupIPC diagTestsWorld).1 = Outcome.failureMsg extensionTestsMsg
    ∧ ∀ s, (setupIPC diagTestsWorld).1 ≠ Outcome.expected s := by
  constructor
  · rfl
  · intro s h
    rw [show (setupIPC diagTestsWorld).1 = Outcome.failureMsg extensionTestsMsg
      from rfl] at h
    exact Outcome.noConfusion h

/-- Concrete world: diagnostic flag set, live peer, no test run. -/
def diagWorld : World :=
  { diagTestsWorld with extensionTestsPath := false }

/-- Witness for C3: in the concrete diagnostic world the run issues no
start request, prints the report and ends with the expected sentinel. -/
theorem c3_diag_no_start_witness :
    Event.startRequest ∉ (setupIPC diagWorld).2
    ∧ (setupIPC diagWorld).1 = Outcome.expected ""
    ∧ Event.printReport ∈ (setupIPC diagWorld).2 :=
  ⟨(c3_diag_no_start diagWorld rfl rfl rfl).1,
   ((c3_diag_no_start diagWorld rfl rfl rfl).2 rfl).1,
   ((c3_diag_no_start diagWorld rfl rfl rfl).2 rfl).2⟩

/-- C5: a permission-denied connect failure surfaces the admin-conflict
dialog and fails with the `EPERM` code, which no other error code's
failure outcome equals. -/
theorem c5_eperm_distinct (w : World)
    (h1 : w.serveResult 0 = some ErrCode.EADDRINUSE)
    (h2 : w.connectResult 0 = some ErrCode.EPERM) :
    (setupIPC w).1 = Outcome.failure ErrCode.EPERM
    ∧ Event.showDialog ∈ (setupIPC w).2
    ∧ ∀ c : ErrCode, c ≠ ErrCode.EPERM →
        Outcome.failure ErrCode.EPERM ≠ Outcome.failure c := by
  refine ⟨?_, ?_, ?_⟩
  · unfold setupIPC setupTrue setupStep
    rw [h1, h2]
    simp
  · unfold setupIPC setupTrue setupStep
    rw [h1, h2]
    cases w.isMacintosh <;> simp
  · intro c hc h
    exact hc (Outcome.failure.inj h).symm

/-- Concrete world: the peer endpoint is owned by a different privilege
level, so connecting fails with permission denied. -/
def epermWorld : World :=
  { staleWorld with connectResult := fun _ => some ErrCode.EPERM }

/-- Witness for C5 at the concrete permission-denied world. -/
theorem c5_eperm_distinct_witness :
    (setupIPC epermWorld).1 = Outcome.failure ErrCode.EPERM
    ∧ Event.showDialog ∈ (setupIPC epermWorld).2
    ∧ Outcome.failure ErrCode.EPERM ≠ Outcome.failure ErrCode.ECONNREFUSED :=
  ⟨(c5_eperm_distinct epermWorld rfl rfl).1,
   (c5_eperm_distinct epermWorld rfl rfl).2.1,
   (c5_eperm_distinct epermWorld rfl rfl).2.2 ErrCode.ECONNREFUSED
     (by intro h; exact ErrCode.noConfusion h)⟩

/-- C7: on Windows the best-effort foreground grant never decides the
outcome — whether the grant call fails or not, the run still sends the
start request and terminates with the forwarded sentinel, and the grant
attempt itself is recorded with the corresponding success flag. -/
theorem c7_grant_best_effort (w : World)
    (h1 : w.serveResult 0 = some ErrCode.EADDRINUSE)
    (h2 : w.connectResult 0 = none)
    (h3 : w.isWindows = true)
    (h4 : w.argsPs = false)
    (h5 : (w.extensionTestsPath && !w.debugBreak) = false) :
    ∀ g : Bool,
      (setupIPC { w with grantFails := g }).1 = Outcome.expected sentEnvMsg
      ∧ Event.startRequest ∈ (setupIPC { w with grantFails := g }).2
      ∧ Event.foregroundGrant (!g) ∈ (setupIPC { w with grantFails := g }).2 := by
  intro g
  have h1g : ({ w with grantFails := g } : World).serveResult 0
      = some ErrCode.EADDRINUSE := h1
  have h2g : ({ w with grantFails := g } : World).connectResult 0 = none := h2
  unfold setupIPC setupTrue setupStep
  rw [h1g, h2g]
  cases hm : w.isMacintosh <;> cases hw : w.wait <;>
    simp [h3, h4, h5, hm, hw]

/-- Concrete world: Windows platform, live peer, forwarding mode, with the
foreground grant failing. -/
def grantFailWorld : World :=
  { staleWorld with
    connectResult := fun _ => none
    isWindows := true
    grantFails := true }

/-- Witness for C7: with a failing grant the run still forwards and ends
with the expected sentinel. -/
theorem c7_grant_best_effort_witness :
    (setupIPC { grantFailWorld with grantFails := true }).1
      = Outcome.expected sentEnvMsg
    ∧ Event.startRequest
        ∈ (setupIPC { grantFailWorld with grantFails := true }).2
    ∧ Event.foregroundGrant false
        ∈ (setupIPC { grantFailWorld with grantFails := true }).2 :=
  ⟨(c7_grant_best_effort grantFailWorld rfl rfl rfl rfl rfl true).1,
   (c7_grant_best_effort grantFailWorld rfl rfl rfl rfl rfl true).2.1,
   (c7_grant_best_effort grantFailWorld rfl rfl rfl rfl rfl true).2.2⟩

/-- Modelled from the spec: the Startup Warning Scheduler of spec section
4.4.  The source delegates it to the platform timer primitives
(`setTimeout` / `clearTimeout`, main.ts:149 and main.ts:180), which are
not part of this repository; the spec requires that `arm` schedules one
firing at the given threshold, `disarm` cancels a pending firing, and a
cancelled scheduler never fires afterward.  State: an optional pending
deadline on a virtual clock, and whether the warning has fired. -/
structure SchedulerState where
  deadline : Option Nat
  fired : Bool

/-- Modelled from the spec: arming schedules the firing `threshold` ticks
from `now`, replacing any pending deadline. -/
def SchedulerState.arm (s : SchedulerState) (now threshold : Nat) :
    SchedulerState :=
  { deadline := some (now + threshold), fired := s.fired }

/-- Modelled from the spec: disarming cancels any pending firing. -/
def SchedulerState.disarm (s : SchedulerState) : SchedulerState :=
  { s with deadline := none }

/-- Modelled from the spec: the virtual clock reaching `now` fires the
warning once if a pending deadline has been reached. -/
def SchedulerState.tick (s : SchedulerState) (now : Nat) : SchedulerState :=
  match s.deadline with
  | some d => if d ≤ now then { deadline := none, fired := true } else s
  | none => s

/-- Run the virtual clock through a list of instants. -/
def ticksRun (s : SchedulerState) (times : List Nat) : SchedulerState :=
  times.foldl SchedulerState.tick s

/-- A scheduler with no pending deadline is unchanged by clock ticks. -/
theorem ticksRun_no_deadline (times : List Nat) (s : SchedulerState)
    (h : s.deadline = none) : ticksRun s times = s := by
  induction times generalizing s with
  | nil => rfl
  | cons t ts ih =>
    have hstep : s.tick t = s := by
      unfold SchedulerState.tick
      rw [h]
    unfold ticksRun
    rw [List.foldl_cons, hstep]
    exact ih s h

/-- C6 (amended): whenever the coordinator reaches a live peer outside an
extension-test conflict, the warning scheduler is armed with the
default 10000 ms threshold exactly when unbounded waiting was not
requested — on the forwarding path and also in diagnostic mode.  On the
forwarding path (no unbounded wait) the full trace arms the scheduler
before the start request and disarms it afterwards; in diagnostic mode
it is armed but never disarmed; with unbounded waiting it is never
armed.  Once disarmed, the modelled scheduler never fires on any later
virtual-clock instants. -/
theorem c6_warning_scheduler (w : World)
    (h1 : w.serveResult 0 = some ErrCode.EADDRINUSE)
    (h2 : w.connectResult 0 = none)
    (h5 : (w.extensionTestsPath && !w.debugBreak) = false) :
    (w.wait = false → w.argsPs = false →
      (setupIPC w).2 =
        [Event.bindAttempt]
          ++ (if w.isMacintosh then [Event.dockHide] else [])
          ++ [Event.armWarning 10000]
          ++ (if w.isWindows then
                [Event.getMainProcessId, Event.foregroundGrant (!w.grantFails)]
              else [])
          ++ [Event.startRequest, Event.clientDispose, Event.disarmWarning])
    ∧ (w.wait = false → w.argsPs = true →
        Event.armWarning 10000 ∈ (setupIPC w).2
          ∧ Event.disarmWarning ∉ (setupIPC w).2)
    ∧ (w.wait = true → Event.armWarning 10000 ∉ (setupIPC w).2)
    ∧ (∀ (s : SchedulerState) (times : List Nat), s.fired = false →
        (ticksRun s.disarm times).fired = false) := by
  refine ⟨?_, ?_, ?_, ?_⟩
  · intro hw hp
    unfold setupIPC setupTrue setupStep
    rw [h1, h2]
    cases hm : w.isMacintosh <;> cases hwin : w.isWindows <;>
      simp [h5, hw, hp, hwin]
  · intro hw hp
    unfold setupIPC setupTrue setupStep
    rw [h1, h2]
    cases hm : w.isMacintosh <;> simp [h5, hw, hp]
  · intro hw
    unfold setupIPC setupTrue setupStep
    rw [h1, h2]
    cases hm : w.isMacintosh <;> cases hp : w.argsPs <;>
      cases hwin : w.isWindows <;> simp [h5, hw, hp, hwin]
  · intro s times hf
    rw [ticksRun_no_deadline times s.disarm rfl]
    exact hf

/-- Counterexample for C6 as stated: in diagnostic mode (live peer, no
unbounded wait) the scheduler is armed — arming is not confined to the
forwarding path — and is never disarmed. -/
theorem c6_warning_scheduler_cex :
    diagWorld.argsPs = true
    ∧ Event.armWarning 10000 ∈ (setupIPC diagWorld).2
    ∧ Event.disarmWarning ∉ (setupIPC diagWorld).2 := by
  refine ⟨rfl, ?_, ?_⟩ <;> decide

/-- Concrete forwarding-mode world on a POSIX platform. -/
def forwardWorld : World :=
  { staleWorld with connectResult := fun _ => none }

/-- Witness for C6 at the concrete forwarding world: the trace is exactly
bind, arm, start, dispose, disarm. -/
theorem c6_warning_scheduler_witness :
    (setupIPC forwardWorld).2 =
      [Event.bindAttempt] ++ [] ++ [Event.armWarning 10000] ++ []
        ++ [Event.startRequest, Event.clientDispose, Event.disarmWarning]
    ∧ (ticksRun (SchedulerState.disarm ⟨some 10000, false⟩) [20000]).fired
        = false := by
  constructor
  · exact (c6_warning_scheduler forwardWorld rfl rfl rfl).1 rfl rfl
  · exact (c6_warning_scheduler forwardWorld rfl rfl rfl).2.2.2
      ⟨some 10000, false⟩ [20000] rfl

/-- A termination reason as `quit` inspects it (main.ts:280-301): the
`isExpected` marker of `ExpectedError`, the message, and the optional
stack (`reason.stack`, checked for truthiness, so an empty stack string
counts as absent). -/
structure ErrReason where
  isExpected : Bool
  message : String
  stack : Option String

/-- Console/log output lines that `quit` produces. -/
inductive LogLine where
  | info (s : String)
  | stderrLine (s : String)
deriving DecidableEq

/-- JavaScript `Error.prototype.toString` for a plain error: name and
message. -/
def errToString (r : ErrReason) : String := "Error: " ++ r.message

/-- `quit` (main.ts:280-301): maps an optional termination reason to the
exit code passed to `lifecycleService.kill` and the log lines written
on the way, mirroring the source's branches: no reason → silent success;
expected reason → informational log, success; anything else → exit code
1 and the stack (when truthy) or a one-line startup error on stderr. -/
def quit (reason : Option ErrReason) : Nat × List LogLine :=
  match reason with
  | none => (0, [])
  | some r =>
    if r.isExpected then
      (0, [LogLine.info r.message])
    else
      (1, [LogLine.stderrLine (match r.stack with
            | some st => if st = "" then "Startup error: " ++ errToString r else st
            | none => "Startup error: " ++ errToString r)])

/-- C4: an absent or expected reason exits with code 0 and never writes to
standard error (an expected reason is logged as information); any other
reason exits with code 1 and writes the stack when present and
non-empty, otherwise (stack absent, or present but empty and hence
JavaScript-falsy) the one-line startup-error message, to standard
error. -/
theorem c4_quit_codes (reason : Option ErrReason) :
    ((reason = none ∨ ∃ e, reason = some e ∧ e.isExpected = true) →
      (quit reason).1 = 0 ∧ ∀ s, LogLine.stderrLine s ∉ (quit reason).2)
    ∧ (∀ e, reason = some e → e.isExpected = true →
        (quit reason).2 = [LogLine.info e.message])
    ∧ (∀ e st, reason = some e → e.isExpected = false → e.stack = some st →
        st ≠ "" → quit reason = (1, [LogLine.stderrLine st]))
    ∧ (∀ e, reason = some e → e.isExpected = false → e.stack = none →
        quit reason
          = (1, [LogLine.stderrLine ("Startup error: " ++ errToString e)]))
    ∧ (∀ e, reason = some e → e.isExpected = false → e.stack = some "" →
        quit reason
          = (1, [LogLine.stderrLine ("Startup error: " ++ errToString e)])) := by
  refine ⟨?_, ?_, ?_, ?_, ?_⟩
  · rintro (h | ⟨e, he, hexp⟩)
    · subst h
      exact ⟨rfl, by intro s h; simp [quit] at h⟩
    · subst he
      refine ⟨by simp [quit, hexp], ?_⟩
      intro s h
      simp [quit, hexp] at h
  · intro e he hexp
    subst he
    simp [quit, hexp]
  · intro e st he hexp hst hne
    subst he
    simp [quit, hexp, hst, hne]
  · intro e he hexp hst
    subst he
    simp [quit, hexp, hst]
  · intro e he hexp hst
    subst he
    simp [quit, hexp, hst]

/-- Expected reason: the forwarded-to-existing sentinel. -/
def expectedReason : ErrReason :=
  { isExpected := true, message := sentEnvMsg, stack := none }

/-- Unexpected reason carrying a stack. -/
def crashReason : ErrReason :=
  { isExpected := false, message := "boom", stack := some "stacktrace" }

/-- Unexpected reason whose stack is the empty string (JavaScript-falsy,
so the source falls back to the one-line message). -/
def emptyStackReason : ErrReason :=
  { isExpected := false, message := "boom", stack := some "" }

/-- Witness for C4: the expected sentinel exits 0 with an info log; a
crash with a stack exits 1 printing the stack; a crash with an empty
(falsy) stack exits 1 printing the one-line startup-error message. -/
theorem c4_quit_codes_witness :
    (quit (some expectedReason)).1 = 0
    ∧ (quit (some expectedReason)).2 = [LogLine.info sentEnvMsg]
    ∧ quit (some crashReason) = (1, [LogLine.stderrLine "stacktrace"])
    ∧ quit (some emptyStackReason)
        = (1, [LogLine.stderrLine ("Startup error: " ++ errToString
            emptyStackReason)]) :=
  ⟨((c4_quit_codes (some expectedReason)).1
      (Or.inr ⟨expectedReason, rfl, rfl⟩)).1,
   (c4_quit_codes (some expectedReason)).2.1 expectedReason rfl rfl,
   (c4_quit_codes (some crashReason)).2.2.1 crashReason "stacktrace" rfl rfl rfl
     (by decide),
   (c4_quit_codes (some emptyStackReason)).2.2.2.2 emptyStackReason
     rfl rfl rfl⟩

/-- Modelled from the spec: the `pad` helper of `vs/base/common/strings`
(imported at main.ts:48 but not part of the shown sources) — numeric
columns are right-justified in a fixed width by left-padding with the
given character. -/
def padStr (s : String) (l : Nat) (c : Char) : String :=
  String.mk (List.replicate (l - s.length) c) ++ s

/-- Modelled from the spec: the `repeat` helper of `vs/base/common/strings`
(imported at main.ts:48 but not part of the shown sources) —
indentation is the given string repeated `n` times (two spaces per
depth level). -/
def repeatStr (s : String) (n : Nat) : String :=
  match n with
  | 0 => ""
  | k + 1 => s ++ repeatStr s k

/-- JavaScript `Number(x.toFixed(0))` on a numeric value: round to the
nearest integer, ties towards the larger value. -/
def jsToFixed0 (q : ℚ) : ℤ := Int.floor (q + 1 / 2)

/-- `const MB = 1024 * 1024` (main.ts:248). -/
def MB : ℚ := 1024 * 1024

/-- One entry of `info.windows`: a window-owning process id and the
window's title. -/
structure WindowInfo where
  pid : Nat
  title : String

/-- The pid-to-title map built by `formatProcessList` (main.ts:218-219):
`forEach`/`Map.set` lets a later entry for the same pid override an
earlier one, so lookup finds the last matching entry. -/
def mapGet (ws : List WindowInfo) (pid : Nat) : Option String :=
  (ws.reverse.find? (fun wi => wi.pid == pid)).map (fun wi => wi.title)

/-- JavaScript template-literal rendering of a `Map.get` result: the value
when present, the text `undefined` when the key is absent. -/
def jsStr (o : Option String) : String :=
  match o with
  | some s => s
  | none => "undefined"

/-- A `ProcessItem` of `vs/base/node/ps`: pid, name, CPU load percentage,
memory percentage, and the ordered children. -/
inductive ProcessItem : Type where
  | mk : Nat → String → ℚ → ℚ → List ProcessItem → ProcessItem

/-- Process id of an item. -/
def ProcessItem.pid : ProcessItem → Nat
  | .mk p _ _ _ _ => p

/-- Raw process name of an item. -/
def ProcessItem.name : ProcessItem → String
  | .mk _ n _ _ _ => n

/-- CPU load percentage of an item. -/
def ProcessItem.load : ProcessItem → ℚ
  | .mk _ _ l _ _ => l

/-- Memory percentage of an item. -/
def ProcessItem.mem : ProcessItem → ℚ
  | .mk _ _ _ m _ => m

/-- Children of an item, in their given order. -/
def ProcessItem.children : ProcessItem → List ProcessItem
  | .mk _ _ _ _ cs => cs

/-- CPU column of a row (main.ts:261): the load rounded via `toFixed(0)`,
right-justified to width 5. -/
def cpuCell (item : ProcessItem) : String :=
  padStr (toString (jsToFixed0 item.load)) 5 ' '

/-- Memory column of a row (main.ts:261): total system memory times the
item's memory percentage, in MB, rounded via `toFixed(0)`,
right-justified to width 6. -/
def memCell (totalmem : ℚ) (item : ProcessItem) : String :=
  padStr (toString (jsToFixed0 (totalmem * (item.mem / 100) / MB))) 6 ' '

/-- Name column of a row (main.ts:250-260): the root is labeled as the
application's main process; other rows are indented two spaces per
level plus the template separator space, and a `renderer` row is
annotated with the window title looked up by pid. -/
def nameCell (m : List WindowInfo) (appName : String)
    (item : ProcessItem) (indent : Nat) : String :=
  if indent == 0 then
    appName ++ " main"
  else
    let base := repeatStr "  " indent ++ " " ++ item.name
    if item.name == "renderer" then
      base ++ " (" ++ jsStr (mapGet m item.pid) ++ ")"
    else base

/-- One table row (main.ts:261): CPU, memory and name columns joined by
tabs. -/
def processRow (m : List WindowInfo) (appName : String) (totalmem : ℚ)
    (item : ProcessItem) (indent : Nat) : String :=
  cpuCell item ++ "\t" ++ memCell totalmem item ++ "\t"
    ++ nameCell m appName item indent

mutual

/-- `formatProcessItem` (main.ts:245-267): emit the item's row, then
recurse into the children at the next indentation level.  The source
pushes into a shared output array; here the pushed rows are returned. -/
def formatProcessItem (m : List WindowInfo) (appName : String)
    (totalmem : ℚ) : ProcessItem → Nat → List String
  | ProcessItem.mk p n l q cs, indent =>
    processRow m appName totalmem (ProcessItem.mk p n l q cs) indent
      :: formatProcessItems m appName totalmem cs (indent + 1)

/-- The `item.children.forEach` loop of main.ts:264-266. -/
def formatProcessItems (m : List WindowInfo) (appName : String)
    (totalmem : ℚ) : List ProcessItem → Nat → List String
  | [], _ => []
  | x :: xs, indent =>
    formatProcessItem m appName totalmem x indent
      ++ formatProcessItems m appName totalmem xs indent

end

mutual

/-- Pre-order traversal of a process tree with depths: the item first,
then its children in their given order. -/
def preorder : ProcessItem → Nat → List (ProcessItem × Nat)
  | ProcessItem.mk p n l q cs, d =>
    (ProcessItem.mk p n l q cs, d) :: preorderChildren cs (d + 1)

/-- Pre-order traversal of a forest at one depth. -/
def preorderChildren : List ProcessItem → Nat → List (ProcessItem × Nat)
  | [], _ => []
  | x :: xs, d => preorder x d ++ preorderChildren xs d

end

mutual

/-- The emitted rows are exactly the pre-order traversal, one row per
item, each built by `processRow` at its depth. -/
theorem formatProcessItem_preorder (m : List WindowInfo) (a : String)
    (tm : ℚ) : ∀ (it : ProcessItem) (d : Nat),
      formatProcessItem m a tm it d
        = (preorder it d).map (fun pr => processRow m a tm pr.1 pr.2)
  | ProcessItem.mk p n l q cs, d => by
    rw [formatProcessItem, preorder]
    simp only [List.map_cons]
    rw [formatProcessItems_preorder m a tm cs (d + 1)]

/-- Forest version of `formatProcessItem_preorder`. -/
theorem formatProcessItems_preorder (m : List WindowInfo) (a : String)
    (tm : ℚ) : ∀ (ls : List ProcessItem) (d : Nat),
      formatProcessItems m a tm ls d
        = (preorderChildren ls d).map (fun pr => processRow m a tm pr.1 pr.2)
  | [], _ => rfl
  | x :: xs, d => by
    rw [formatProcessItems, preorderChildren, List.map_append]
    rw [formatProcessItem_preorder m a tm x d,
        formatProcessItems_preorder m a tm xs d]

end

/-- Number of leading space characters of a character list. -/
def leadingSpacesL : List Char → Nat
  | [] => 0
  | c :: rest => if c = ' ' then leadingSpacesL rest + 1 else 0

/-- Leading spaces of an appended list: all of the first part plus the
second's when the first is entirely spaces, otherwise the first's. -/
theorem leadingSpacesL_append (l1 l2 : List Char) :
    leadingSpacesL (l1 ++ l2) =
      if leadingSpacesL l1 = l1.length then l1.length + leadingSpacesL l2
      else leadingSpacesL l1 := by
  induction l1 with
  | nil => simp [leadingSpacesL]
  | cons c l ih =>
    by_cases hc : c = ' '
    · simp only [List.cons_append, leadingSpacesL, if_pos hc,
        List.append_eq, ih, List.length_cons]
      by_cases h : leadingSpacesL l = l.length
      · rw [if_pos h, if_pos (show leadingSpacesL l + 1 = l.length + 1 by
          omega)]
        omega
      · rw [if_neg h, if_neg (show ¬leadingSpacesL l + 1 = l.length + 1 by
          omega)]
    · simp only [List.cons_append, leadingSpacesL, if_neg hc,
        List.length_cons]
      rw [if_neg (by omega)]

/-- A run of spaces is all leading spaces. -/
theorem leadingSpacesL_replicate (k : Nat) :
    leadingSpacesL (List.replicate k ' ') = k := by
  induction k with
  | zero => rfl
  | succ n ih => simp [List.replicate_succ, leadingSpacesL, ih]

/-- Leading spaces after a space run: the run plus the rest's count. -/
theorem leadingSpacesL_replicate_append (k : Nat) (l : List Char) :
    leadingSpacesL (List.replicate k ' ' ++ l) = k + leadingSpacesL l := by
  rw [leadingSpacesL_append, leadingSpacesL_replicate, List.length_replicate,
    if_pos rfl]

/-- Leading spaces of a list starting with a space. -/
theorem leadingSpacesL_cons_space (l : List Char) :
    leadingSpacesL (' ' :: l) = leadingSpacesL l + 1 := by
  simp [leadingSpacesL]

/-- The indentation's repeated two-space prefix, as characters. -/
theorem repeatStr_two_data (d : Nat) :
    (repeatStr "  " d).data = List.replicate (2 * d) ' ' := by
  induction d with
  | zero => rfl
  | succ n ih =>
    rw [repeatStr, String.data_append, ih]
    have h2 : ("  " : String).data = [' ', ' '] := rfl
    rw [h2]
    have h3 : 2 * (n + 1) = 2 * n + 1 + 1 := by ring
    rw [h3, List.replicate_succ, List.replicate_succ]
    rfl

/-- Whether a string does not start with a space character. -/
def noLeadSpaceB (s : String) : Bool :=
  match s.data with
  | [] => true
  | c :: _ => !(c == ' ')

/-- A string not starting with a space has no leading spaces. -/
theorem leadingSpacesL_of_noLead (s : String) (h : noLeadSpaceB s = true) :
    leadingSpacesL s.data = 0 := by
  unfold noLeadSpaceB at h
  cases hd : s.data with
  | nil => simp [leadingSpacesL]
  | cons c rest =>
    rw [hd] at h
    simp only [Bool.not_eq_true'] at h
    have hc : ¬ c = ' ' := by
      intro hcc
      rw [hcc] at h
      simp at h
    simp [leadingSpacesL, hc]

/-- Indentation depth of a table cell: leading spaces counted in
two-space units. -/
def indentDepth (s : String) : Nat := leadingSpacesL s.data / 2

/-- The name cell of a row at depth `d` has indentation depth `d`: the
root has none, and a depth-`d` row starts with the two-space-per-level
prefix (plus the template separator space), provided neither the
application name nor the item's raw name starts with a space. -/
theorem indentDepth_nameCell (m : List WindowInfo) (a : String)
    (it : ProcessItem) (d : Nat)
    (hn : noLeadSpaceB it.name = true) (ha : noLeadSpaceB a = true) :
    indentDepth (nameCell m a it d) = d := by
  cases d with
  | zero =>
    have h0 : nameCell m a it 0 = a ++ " main" := rfl
    rw [h0]
    unfold indentDepth
    rw [String.data_append, leadingSpacesL_append]
    by_cases hl : leadingSpacesL a.data = a.data.length
    · rw [if_pos hl]
      have h1 : leadingSpacesL (" main" : String).data = 1 := rfl
      rw [h1]
      have h2 := leadingSpacesL_of_noLead a ha
      rw [h2] at hl
      omega
    · rw [if_neg hl, leadingSpacesL_of_noLead a ha]
  | succ k =>
    unfold nameCell
    have hk : ((k + 1 : Nat) == 0) = false := by simp
    simp only [hk, Bool.false_eq_true, if_false]
    by_cases hr : (it.name == "renderer") = true
    · have hname : it.name = "renderer" := eq_of_beq hr
      simp only [hname]
      rw [if_pos (show (("renderer" : String) == "renderer") = true from rfl)]
      unfold indentDepth
      simp only [String.data_append, List.append_assoc]
      rw [repeatStr_two_data]
      rw [List.singleton_append]
      rw [leadingSpacesL_replicate_append, leadingSpacesL_cons_space]
      rw [leadingSpacesL_append]
      have c1 : leadingSpacesL ("renderer" : String).data = 0 := rfl
      have c2 : ("renderer" : String).data.length = 8 := rfl
      rw [c1, c2, if_neg (by omega)]
      omega
    · have hr' : (it.name == "renderer") = false := by
        exact Bool.not_eq_true _ ▸ Bool.of_not_eq_true hr
      simp only [hr', Bool.false_eq_true, if_false]
      unfold indentDepth
      simp only [String.data_append, List.append_assoc]
      rw [repeatStr_two_data]
      rw [List.singleton_append]
      rw [leadingSpacesL_replicate_append, leadingSpacesL_cons_space]
      rw [leadingSpacesL_of_noLead it.name hn]
      omega

/-- C9: the formatter emits exactly one row per `ProcessItem`, in
pre-order with children in their given order; every row's name cell has
indentation depth equal to the item's depth (no indentation at depth
0); and the root row is labeled as the application's main process
regardless of its raw process name. -/
theorem c9_rows_preorder (m : List WindowInfo) (a : String) (tm : ℚ)
    (it : ProcessItem)
    (hn : ∀ pr ∈ preorder it 0, noLeadSpaceB (pr.1).name = true)
    (ha : noLeadSpaceB a = true) :
    formatProcessItem m a tm it 0
      = (preorder it 0).map (fun pr => processRow m a tm pr.1 pr.2)
    ∧ (∀ pr ∈ preorder it 0, indentDepth (nameCell m a pr.1 pr.2) = pr.2)
    ∧ (preorder it 0).head? = some (it, 0)
    ∧ nameCell m a it 0 = a ++ " main" := by
  refine ⟨formatProcessItem_preorder m a tm it 0, ?_, ?_, rfl⟩
  · intro pr hpr
    exact indentDepth_nameCell m a pr.1 pr.2 (hn pr hpr) ha
  · cases it with
    | mk p n l q cs => rfl

/-- Child item hosting a window. -/
def rendererChild : ProcessItem := ProcessItem.mk 101 "renderer" 5 1 []

/-- Child item that hosts no window. -/
def gpuChild : ProcessItem := ProcessItem.mk 102 "gpu-process" 0 2 []

/-- A tree of one root with two depth-1 children. -/
def sampleTree : ProcessItem :=
  ProcessItem.mk 100 "electron" 1 3 [rendererChild, gpuChild]

/-- Witness for C9: the sample tree yields exactly 3 rows, with
indentation depths 0, 1, 1 in traversal order. -/
theorem c9_rows_preorder_witness :
    (formatProcessItem [] "code" 1048576 sampleTree 0).length = 3
    ∧ (preorder sampleTree 0).map
        (fun pr => indentDepth (nameCell [] "code" pr.1 pr.2)) = [0, 1, 1] := by
  have h := c9_rows_preorder [] "code" 1048576 sampleTree (by decide) (by decide)
  constructor
  · rw [h.1, List.length_map]
    rfl
  · decide

/-- C8 (amended): a non-root row whose name is `renderer` always receives
the parenthesized window annotation — the title found by looking up the
item's pid in the window list when one exists, and the JavaScript text
`undefined` when the pid has no entry (the annotation is not
omitted). -/
theorem c8_renderer_title (m : List WindowInfo) (a : String)
    (it : ProcessItem) (d : Nat) (hd : d ≠ 0)
    (hr : it.name = "renderer") :
    (∀ t, mapGet m it.pid = some t →
      nameCell m a it d
        = repeatStr "  " d ++ " " ++ it.name ++ " (" ++ t ++ ")")
    ∧ (mapGet m it.pid = none →
      nameCell m a it d
        = repeatStr "  " d ++ " " ++ it.name ++ " (" ++ "undefined" ++ ")") := by
  have hd' : (d == 0) = false := by simp [hd]
  constructor
  · intro t ht
    unfold nameCell
    simp only [hd', Bool.false_eq_true, if_false, hr]
    rw [if_pos (show (("renderer" : String) == "renderer") = true from rfl)]
    rw [ht]
    rfl
  · intro ht
    unfold nameCell
    simp only [hd', Bool.false_eq_true, if_false, hr]
    rw [if_pos (show (("renderer" : String) == "renderer") = true from rfl)]
    rw [ht]
    rfl

/-- A renderer item whose pid has no entry in the window list. -/
def orphanRenderer : ProcessItem := ProcessItem.mk 42 "renderer" 0 0 []

/-- Counterexample for C8 as stated: with an empty window list the
renderer row is not left without annotation — it gets the text
`(undefined)` appended. -/
theorem c8_renderer_title_cex :
    nameCell [] "code" orphanRenderer 1 = "   renderer (undefined)"
    ∧ nameCell [] "code" orphanRenderer 1 ≠ "   renderer" := by
  constructor <;> decide

/-- A window list with a title for pid 42. -/
def titledWindows : List WindowInfo := [{ pid := 42, title := "My Doc" }]

/-- Witness for C8: the concrete renderer row with a mapped pid gets the
title, and with an unmapped pid gets the `undefined` text. -/
theorem c8_renderer_title_witness :
    nameCell titledWindows "code" orphanRenderer 1
      = repeatStr "  " 1 ++ " " ++ "renderer" ++ " (" ++ "My Doc" ++ ")"
    ∧ nameCell [] "code" orphanRenderer 1
      = repeatStr "  " 1 ++ " " ++ "renderer" ++ " (" ++ "undefined" ++ ")" :=
  ⟨(c8_renderer_title titledWindows "code" orphanRenderer 1 one_ne_zero
      rfl).1 "My Doc" rfl,
   (c8_renderer_title [] "code" orphanRenderer 1 one_ne_zero rfl).2 rfl⟩

/-- C10: the memory column of every row is the total system memory times
the item's memory percentage over 100, divided by 1024×1024 bytes per
MB, rounded to the nearest integer (right-justified to width 6), and
the row carries it as its second tab-separated column. -/
theorem c10_mem_column (m : List WindowInfo) (a : String) (tm : ℚ)
    (item : ProcessItem) (d : Nat) :
    memCell tm item
      = padStr (toString (round (tm * (item.mem / 100) / (1024 * 1024)))) 6 ' '
    ∧ processRow m a tm item d
      = cpuCell item ++ "\t" ++ memCell tm item ++ "\t"
          ++ nameCell m a item d := by
  constructor
  · unfold memCell jsToFixed0 MB
    rw [round_eq]
  · rfl
